import Mathlib

/-!
Verification of the BadgerDB buffer manager (`src/unnamed/part_000`, final
revision, namespace `badgerdb`) against its natural-language specification.

The buffer pool state is embedded shallowly: the descriptor table, frame
pool, page index (hash table), disk contents, clock hand and statistics
counters become explicit fields of a `BufState` record; each C++ method
becomes a pure function `BufState → BufState × Except BufErr α`, modelling
C++ exceptions on a mutable object (mutations made before a throw persist).
Disk I/O calls are additionally recorded in an event trace so that ordering
and call-count properties are expressible.

File identities and page identifiers are modelled as naturals; page payloads
are abstracted to a natural number.
-/

/-- A disk I/O event: a page write, a page read, or a page deletion,
each against file `f`, page `p`. -/
inductive Ev where
  | wr (f : Nat) (p : Nat)
  | rd (f : Nat) (p : Nat)
  | del (f : Nat) (p : Nat)
deriving Repr, DecidableEq

/-- Frame descriptor, mirroring `BufDesc` of `buffer.h`: owning file
(`none` when cleared), resident page number, pin count, dirty / valid /
reference bits. -/
structure BufDesc where
  frameNo : Nat
  file : Option Nat
  pageNo : Nat
  pinCnt : Nat
  dirty : Bool
  valid : Bool
  refbit : Bool
deriving Repr, DecidableEq

instance : Inhabited BufDesc :=
  ⟨{ frameNo := 0, file := none, pageNo := 0, pinCnt := 0,
     dirty := false, valid := false, refbit := false }⟩

/-- Modelled from the spec: `BufDesc::clear()` lives in `buffer.h`, which is
not present under `src/`; spec §4.1 says `clear()` restores the invalid state
of Invariant 1 (`pinCnt = 0`, `dirty = false`, `refbit = false`,
`valid = false`, no owning file, page number undefined — taken as 0). -/
def BufDesc.clear (d : BufDesc) : BufDesc :=
  { d with file := none, pageNo := 0, pinCnt := 0,
           dirty := false, valid := false, refbit := false }

/-- Modelled from the spec: `BufDesc::Set(file, pageNo)` lives in `buffer.h`,
which is not present under `src/`; spec §4.1 says it installs the page
identity and sets `valid = true`, `pinCnt = 1`, `dirty = false`,
`refbit = false`. -/
def BufDesc.Set (d : BufDesc) (f p : Nat) : BufDesc :=
  { d with file := some f, pageNo := p, pinCnt := 1,
           dirty := false, valid := true, refbit := false }

/-- Association-list lookup on `(file, pageNo)` keys; first match wins. -/
def assocFind {β : Type} (k : Nat × Nat) : List ((Nat × Nat) × β) → Option β
  | [] => none
  | e :: t => if e.1 = k then some e.2 else assocFind k t

/-- Remove every binding of key `k` from an association list. -/
def assocErase {β : Type} (k : Nat × Nat) :
    List ((Nat × Nat) × β) → List ((Nat × Nat) × β)
  | [] => []
  | e :: t => if e.1 = k then assocErase k t else e :: assocErase k t

/-- Errors raised by the buffer manager (§7). `HashNotFound` is internal and
is modelled by `Option`-valued lookup. -/
inductive BufErr where
  | bufferExceeded
  | pageNotPinned (fname : Nat) (pageNo : Nat) (frameNo : Nat)
  | pagePinned (fname : Nat) (pageNo : Nat) (frameNo : Nat)
  | badBuffer (frameNo : Nat) (dirty : Bool) (valid : Bool) (refbit : Bool)
deriving Repr, DecidableEq

/-- The whole buffer-manager state: descriptor table, frame pool, page
index, disk image, clock hand, statistics, and the disk I/O event trace. -/
structure BufState where
  numBufs : Nat
  bufDescTable : List BufDesc
  bufPool : List Nat
  hashTable : List ((Nat × Nat) × Nat)
  disk : List ((Nat × Nat) × Nat)
  clockHand : Nat
  accesses : Nat
  diskreads : Nat
  diskwrites : Nat
  trace : List Ev
deriving Repr, DecidableEq

/-- `bufDescTable[i]` (out-of-range reads yield the all-clear descriptor). -/
def BufState.descAt (s : BufState) (i : Nat) : BufDesc :=
  s.bufDescTable.getD i default

/-- `bufDescTable[i] = d`. -/
def BufState.setDesc (s : BufState) (i : Nat) (d : BufDesc) : BufState :=
  { s with bufDescTable := s.bufDescTable.set i d }

/-- `bufPool[i]`. -/
def BufState.poolAt (s : BufState) (i : Nat) : Nat :=
  s.bufPool.getD i 0

/-- `BufMgr::advanceClock`: `clockHand = (clockHand + 1) % numBufs`. -/
def BufState.advanceClock (s : BufState) : BufState :=
  { s with clockHand := (s.clockHand + 1) % s.numBufs }

/-- `hashTable.lookup(file, pageNo)`, with `HashNotFound` as `none`. -/
def BufState.hashLookup (s : BufState) (f p : Nat) : Option Nat :=
  assocFind (f, p) s.hashTable

/-- `hashTable.insert(file, pageNo, frameNo)` (callers insert only keys
that are absent). -/
def BufState.hashInsert (s : BufState) (f p i : Nat) : BufState :=
  { s with hashTable := ((f, p), i) :: s.hashTable }

/-- `hashTable.remove(file, pageNo)`. -/
def BufState.hashRemove (s : BufState) (f p : Nat) : BufState :=
  { s with hashTable := assocErase (f, p) s.hashTable }

/-- `file.writePage(page)`: persist payload `v` under `(f, p)` and record
the write event. -/
def BufState.writePage (s : BufState) (f p v : Nat) : BufState :=
  { s with disk := ((f, p), v) :: s.disk, trace := s.trace ++ [Ev.wr f p] }

/-- The payload currently stored on disk under `(f, p)`. -/
def BufState.readDisk (s : BufState) (f p : Nat) : Nat :=
  (assocFind (f, p) s.disk).getD 0

/-- Record the read event of `file.readPage(pageNo)`. -/
def BufState.markRead (s : BufState) (f p : Nat) : BufState :=
  { s with trace := s.trace ++ [Ev.rd f p] }

/-- `file.deletePage(pageNo)`: drop the page and record the event. -/
def BufState.deletePage (s : BufState) (f p : Nat) : BufState :=
  { s with disk := assocErase (f, p) s.disk, trace := s.trace ++ [Ev.del f p] }

/-- The dirty-victim eviction step of `BufMgr::allocBuf` (part_000 lines
295–302), in source order: `file.writePage(bufPool[clockHand])`,
`accesses++`, `diskwrites++`, `hashTable.remove(file, pageNo)`,
`bufDescTable[clockHand].clear()`. -/
def evictDirty (s : BufState) : BufState :=
  let d := s.descAt s.clockHand
  let s1 := s.writePage (d.file.getD 0) d.pageNo (s.poolAt s.clockHand)
  let s2 := { s1 with accesses := s1.accesses + 1,
                      diskwrites := s1.diskwrites + 1 }
  let s3 := s2.hashRemove (d.file.getD 0) d.pageNo
  s3.setDesc s.clockHand d.clear

/-- The clock-sweep loop body of `BufMgr::allocBuf` (part_000 lines
274–313).  `fuel` is `2 * numBufs - count`, so `fuel = 0` is exactly the
loop guard `count < numBufs * 2` failing, upon which `BufferExceeded` is
thrown; `steps` accumulates the `count++` step-actions performed.  Per
visited frame, in source order: invalid → return it unchanged; refbit set →
clear refbit, advance; pinned → advance; dirty victim → `evictDirty`,
return; clean victim → return it unchanged (the source performs no unmap
and no clear on this path). -/
def allocBufGo (s : BufState) (fuel steps : Nat) :
    BufState × Except BufErr Nat × Nat :=
  match fuel with
  | 0 => (s, Except.error BufErr.bufferExceeded, steps)
  | fuel + 1 =>
    let d := s.descAt s.clockHand
    if d.valid = false then
      (s, Except.ok s.clockHand, steps)
    else if d.refbit = true then
      allocBufGo ((s.setDesc s.clockHand { d with refbit := false }).advanceClock)
        fuel (steps + 1)
    else if d.pinCnt ≠ 0 then
      allocBufGo s.advanceClock fuel (steps + 1)
    else if d.dirty = true then
      (evictDirty s, Except.ok s.clockHand, steps)
    else
      (s, Except.ok s.clockHand, steps)

/-- `BufMgr::allocBuf` (part_000 lines 274–313): run the sweep with the
`count < numBufs * 2` budget.  Returns the final state, the chosen frame or
`BufferExceeded`, and the number of step-actions performed. -/
def allocBuf (s : BufState) : BufState × Except BufErr Nat × Nat :=
  allocBufGo s (2 * s.numBufs) 0

/-- `BufMgr::readPage` (part_000 lines 315–346).  Hit: set refbit, increment
pin count and `accesses`.  Miss: `allocBuf`, read the page from disk
(`diskreads++`), place it in the pool, insert the hash entry, `Set` the
descriptor. -/
def readPage (s : BufState) (f p : Nat) : BufState × Except BufErr Unit :=
  match s.hashLookup f p with
  | some frameNo =>
    let d := s.descAt frameNo
    let s1 := s.setDesc frameNo { d with refbit := true, pinCnt := d.pinCnt + 1 }
    ({ s1 with accesses := s1.accesses + 1 }, Except.ok ())
  | none =>
    let r := allocBuf s
    match r.2.1 with
    | Except.error e => (r.1, Except.error e)
    | Except.ok frameNo =>
      let v := r.1.readDisk f p
      let s2 := r.1.markRead f p
      let s3 := { s2 with diskreads := s2.diskreads + 1 }
      let s4 := { s3 with bufPool := s3.bufPool.set frameNo v }
      let s5 := s4.hashInsert f p frameNo
      let s6 := s5.setDesc frameNo ((s5.descAt frameNo).Set f p)
      (s6, Except.ok ())

/-- `BufMgr::unPinPage` (part_000 lines 348–365).  Absent page: silent
return.  `pinCnt = 0`: `PageNotPinned`.  Otherwise decrement `pinCnt` and,
when the `dirty` argument is true, set the dirty bit. -/
def unPinPage (s : BufState) (f p : Nat) (dirty : Bool) :
    BufState × Except BufErr Unit :=
  match s.hashLookup f p with
  | none => (s, Except.ok ())
  | some frameNo =>
    let d := s.descAt frameNo
    if d.pinCnt = 0 then
      (s, Except.error (BufErr.pageNotPinned f p frameNo))
    else
      let s1 := s.setDesc frameNo { d with pinCnt := d.pinCnt - 1 }
      if dirty then
        let d1 := s1.descAt frameNo
        (s1.setDesc frameNo { d1 with dirty := true }, Except.ok ())
      else
        (s1, Except.ok ())

/-- The dirty-frame handling of `BufMgr::flushFile` (part_000 lines
403–412), in source order: `bufDescTable[i].file.writePage(bufPool[i])`,
`dirty = false`, `hashTable.remove(file, pageNo)`,
`bufDescTable[i].clear()`. -/
def flushFrame (s : BufState) (f i : Nat) : BufState :=
  let d := s.descAt i
  let s1 := s.writePage f d.pageNo (s.poolAt i)
  let s2 := s1.setDesc i { d with dirty := false }
  let s3 := s2.hashRemove f d.pageNo
  s3.setDesc i ((s3.descAt i).clear)

/-- The loop of `BufMgr::flushFile` (part_000 lines 388–415) from frame
index `i`; `fuel` bounds the remaining iterations (`flushFile` supplies
`numBufs`).  For each frame whose `file` equals `f`: invalid → throw
`BadBuffer`; pinned → throw `PagePinned`; dirty → `flushFrame` (write back,
reset dirty, remove the hash entry, clear the descriptor).  Clean matching
frames and frames of other files are passed over. -/
def flushGo (s : BufState) (f : Nat) (i fuel : Nat) :
    BufState × Except BufErr Unit :=
  match fuel with
  | 0 => (s, Except.ok ())
  | fuel + 1 =>
    if s.numBufs ≤ i then (s, Except.ok ())
    else
      let d := s.descAt i
      if d.file = some f then
        if d.valid = false then
          (s, Except.error (BufErr.badBuffer i d.dirty d.valid d.refbit))
        else if d.pinCnt > 0 then
          (s, Except.error (BufErr.pagePinned f d.pageNo i))
        else if d.dirty = true then
          flushGo (flushFrame s f i) f (i + 1) fuel
        else
          flushGo s f (i + 1) fuel
      else
        flushGo s f (i + 1) fuel

/-- `BufMgr::flushFile` (part_000 lines 388–415): sweep frames 0 … N−1 in
ascending order. -/
def flushFile (s : BufState) (f : Nat) : BufState × Except BufErr Unit :=
  flushGo s f 0 s.numBufs

/-- `BufMgr::disposePage` (part_000 lines 417–431): if `(f, p)` is resident,
remove its hash entry and clear its descriptor (`HashNotFound` is swallowed);
in all cases call `file.deletePage(p)`. -/
def disposePage (s : BufState) (f p : Nat) : BufState × Except BufErr Unit :=
  let s1 :=
    match s.hashLookup f p with
    | some frameNo => (s.hashRemove f p).setDesc frameNo ((s.descAt frameNo).clear)
    | none => s
  (s1.deletePage f p, Except.ok ())

/-- The `BufMgr` constructor (part_000 lines 254–265): `N` invalid
descriptors, clock hand at `N − 1`; `disk0` is the initial disk image. -/
def initState (bufs : Nat) (disk0 : List ((Nat × Nat) × Nat)) : BufState :=
  { numBufs := bufs
  , bufDescTable := (List.range bufs).map (fun i =>
      { frameNo := i, file := none, pageNo := 0, pinCnt := 0,
        dirty := false, valid := false, refbit := false })
  , bufPool := List.replicate bufs 0
  , hashTable := []
  , disk := disk0
  , clockHand := bufs - 1
  , accesses := 0
  , diskreads := 0
  , diskwrites := 0
  , trace := [] }

/-! ### List and association-list helper lemmas -/

theorem listGetD_set_self {α : Type} (l : List α) (i : Nat) (a d : α)
    (h : i < l.length) : (l.set i a).getD i d = a := by
  induction l generalizing i with
  | nil => simp at h
  | cons x t ih =>
    cases i with
    | zero => simp [List.set, List.getD]
    | succ j =>
      simp only [List.set, List.getD, List.get?] at *
      exact ih j (by simpa using h)

theorem listGetD_set_of_ne {α : Type} (l : List α) (i j : Nat) (a d : α)
    (h : i ≠ j) : (l.set j a).getD i d = l.getD i d := by
  induction l generalizing i j with
  | nil => simp [List.set]
  | cons x t ih =>
    cases j with
    | zero =>
      cases i with
      | zero => exact absurd rfl h
      | succ i' => simp [List.set, List.getD]
    | succ j' =>
      cases i with
      | zero => simp [List.set, List.getD]
      | succ i' =>
        simp only [List.set, List.getD, List.get?]
        exact ih i' j' (by omega)

theorem listGetD_of_len_le {α : Type} (l : List α) (i : Nat) (d : α)
    (h : l.length ≤ i) : l.getD i d = d := by
  induction l generalizing i with
  | nil => simp [List.getD]
  | cons x t ih =>
    cases i with
    | zero => simp at h
    | succ j =>
      simp only [List.getD, List.get?]
      exact ih j (by simpa using h)

theorem assocFind_erase {β : Type} (k : Nat × Nat) (l : List ((Nat × Nat) × β)) :
    assocFind k (assocErase k l) = none := by
  induction l with
  | nil => rfl
  | cons e t ih =>
    by_cases h : e.1 = k
    · simpa [assocErase, h] using ih
    · simpa [assocErase, assocFind, h] using ih

theorem assocFind_erase_of_ne {β : Type} (k k' : Nat × Nat)
    (l : List ((Nat × Nat) × β)) (h : k' ≠ k) :
    assocFind k' (assocErase k l) = assocFind k' l := by
  induction l with
  | nil => rfl
  | cons e t ih =>
    by_cases he : e.1 = k
    · simpa [assocErase, assocFind, he, Ne.symm h] using ih
    · by_cases he' : e.1 = k'
      · simp [assocErase, assocFind, he, he', h]
      · simpa [assocErase, assocFind, he, he'] using ih

/-! ### Small facts about the state operations -/

theorem descAt_setDesc_self (s : BufState) (i : Nat) (d : BufDesc)
    (h : i < s.bufDescTable.length) : (s.setDesc i d).descAt i = d := by
  simp only [BufState.setDesc, BufState.descAt]
  exact listGetD_set_self _ _ _ _ h

theorem descAt_setDesc_of_ne (s : BufState) (i j : Nat) (d : BufDesc)
    (h : i ≠ j) : (s.setDesc j d).descAt i = s.descAt i := by
  simp only [BufState.setDesc, BufState.descAt]
  exact listGetD_set_of_ne _ _ _ _ _ h

theorem descAt_valid_lt_length (s : BufState) (i : Nat)
    (h : (s.descAt i).valid = true) : i < s.bufDescTable.length := by
  by_contra hlt
  have : s.descAt i = default := by
    simp only [BufState.descAt]
    exact listGetD_of_len_le _ _ _ (by omega)
  rw [this] at h
  simp [default] at h

theorem descAt_pin_lt_length (s : BufState) (i : Nat)
    (h : (s.descAt i).pinCnt ≠ 0) : i < s.bufDescTable.length := by
  by_contra hlt
  have : s.descAt i = default := by
    simp only [BufState.descAt]
    exact listGetD_of_len_le _ _ _ (by omega)
  rw [this] at h
  simp [default] at h

theorem clear_default : (default : BufDesc).clear = default := by
  simp [BufDesc.clear, default]

instance {ε α : Type} [DecidableEq ε] [DecidableEq α] :
    DecidableEq (Except ε α) := fun a b =>
  match a, b with
  | Except.error e, Except.error e' =>
    if h : e = e' then isTrue (by rw [h])
    else isFalse (by intro hh; injection hh; exact h (by assumption))
  | Except.error _, Except.ok _ => isFalse (by intro hh; exact Except.noConfusion hh)
  | Except.ok _, Except.error _ => isFalse (by intro hh; exact Except.noConfusion hh)
  | Except.ok v, Except.ok w =>
    if h : v = w then isTrue (by rw [h])
    else isFalse (by intro hh; injection hh; exact h (by assumption))

/-! ### Concrete executions exhibiting the clean-eviction defect

`diskA` is a small initial disk image.  `cleanVictimState` is reached from a
fresh one-frame pool by `readPage(file 1, page 5); unPinPage(file 1, page 5,
false)`: its single frame is valid, clean, unpinned, with `refbit = false`,
and the page index maps `(1, 5)` to it.  `staleHitState` extends the same
idea: after a clean eviction leaves the stale entry `(1, 1) ↦ 0` behind,
`disposePage` clears the frame and a `readPage(1, 1)` hit on the stale entry
pins the now-invalid frame. -/

def diskA : List ((Nat × Nat) × Nat) :=
  [((1, 1), 10), ((2, 2), 20), ((3, 3), 30), ((1, 5), 7)]

def cleanVictimState : BufState :=
  (unPinPage (readPage (initState 1 diskA) 1 5).1 1 5 false).1

def afterCleanEvict : BufState :=
  (readPage (unPinPage (readPage (initState 1 diskA) 1 1).1 1 1 false).1 2 2).1

def afterDispose : BufState :=
  (disposePage (unPinPage afterCleanEvict 2 2 false).1 2 2).1

def staleHitState : BufState := (readPage afterDispose 1 1).1

/-- Claim C1: the claim says every frame returned by a successful `allocBuf`
is fully invalid and unmapped, in particular a clean valid victim must be
unmapped from the page index and cleared.  The code violates this: in
`cleanVictimState` (one valid, clean, unpinned, `refbit = false` frame
reached by `readPage(1,5); unPinPage(1,5,false)` on a one-frame pool),
`allocBuf` returns frame 0 with the state completely unchanged — the
descriptor still `valid` and the page index still mapping `(1, 5)` to the
returned frame. -/
theorem allocBuf_clean_victim_left_mapped :
    (allocBuf cleanVictimState).2.1 = Except.ok 0 ∧
    (allocBuf cleanVictimState).1 = cleanVictimState ∧
    ((allocBuf cleanVictimState).1.descAt 0).valid = true ∧
    (allocBuf cleanVictimState).1.hashLookup 1 5 = some 0 := by decide

/-- Claim C2: the claim says `allocBuf` never returns a frame whose `pinCnt`
is positive in any reachable state.  `staleHitState` is reachable from a
fresh one-frame pool by `readPage(1,1); unPinPage(1,1,false); readPage(2,2);
unPinPage(2,2,false); disposePage(2,2); readPage(1,1)`: the clean eviction
inside the second `readPage` leaves the stale index entry `(1,1) ↦ 0`, the
`disposePage` clears the frame, and the final `readPage` hit through the
stale entry pins the invalid frame.  `allocBuf` then returns frame 0 even
though its `pinCnt` is 1. -/
theorem allocBuf_returns_pinned_frame :
    (staleHitState.descAt 0).valid = false ∧
    (staleHitState.descAt 0).pinCnt = 1 ∧
    (allocBuf staleHitState).2.1 = Except.ok 0 ∧
    (allocBuf staleHitState).1 = staleHitState := by decide

/-- Claim C5: the claim says a successful `flushFile(file)` unmaps and clears
every frame that held a page of the file, dirty or clean.  The code only
unmaps and clears dirty frames: in `cleanVictimState` the single frame holds
the clean page `(1, 5)` of file 1, `flushFile 1` succeeds, yet afterwards the
page index still maps `(1, 5)` to frame 0 and the descriptor is still
valid. -/
theorem flushFile_leaves_clean_frame_mapped :
    ((cleanVictimState.descAt 0).file = some 1) ∧
    ((cleanVictimState.descAt 0).dirty = false) ∧
    ((cleanVictimState.descAt 0).valid = true) ∧
    (flushFile cleanVictimState 1).2 = Except.ok () ∧
    (flushFile cleanVictimState 1).1.hashLookup 1 5 = some 0 ∧
    ((flushFile cleanVictimState 1).1.descAt 0).valid = true := by decide

/-- Claim C8: the claim says that whenever `readPage(f, p)` and
`unPinPage(f, p, false)` both succeed, the pin count of the frame holding
`p` returns to its pre-call value.  In the reachable state `staleHitState`
frame 0 is invalid with `pinCnt = 1`; `readPage(3, 3)` misses, `allocBuf`
hands out that frame, and `BufDesc::Set` overwrites `pinCnt` to 1, so the
subsequent successful `unPinPage(3, 3, false)` leaves `pinCnt = 0 ≠ 1`. -/
theorem readPage_unPinPage_pin_not_restored :
    ((staleHitState.descAt 0).pinCnt = 1) ∧
    ((readPage staleHitState 3 3).2 = Except.ok ()) ∧
    ((readPage staleHitState 3 3).1.hashLookup 3 3 = some 0) ∧
    ((unPinPage (readPage staleHitState 3 3).1 3 3 false).2 = Except.ok ()) ∧
    ((unPinPage (readPage staleHitState 3 3).1 3 3 false).1.hashLookup 3 3
      = some 0) ∧
    (((unPinPage (readPage staleHitState 3 3).1 3 3 false).1.descAt 0).pinCnt
      = 0) := by decide

/-! ### The clock sweep: step budget and exhaustion -/

theorem descAt_advanceClock (s : BufState) (i : Nat) :
    s.advanceClock.descAt i = s.descAt i := rfl

theorem numBufs_advanceClock (s : BufState) :
    s.advanceClock.numBufs = s.numBufs := rfl

theorem numBufs_setDesc (s : BufState) (i : Nat) (d : BufDesc) :
    (s.setDesc i d).numBufs = s.numBufs := rfl

theorem len_setDesc (s : BufState) (i : Nat) (d : BufDesc) :
    (s.setDesc i d).bufDescTable.length = s.bufDescTable.length := by
  simp [BufState.setDesc]

theorem allocBufGo_steps_le (fuel : Nat) :
    ∀ (s : BufState) (steps : Nat),
      (allocBufGo s fuel steps).2.2 ≤ steps + fuel := by
  induction fuel with
  | zero => intro s steps; simp [allocBufGo]
  | succ n ih =>
    intro s steps
    simp only [allocBufGo]
    split
    · exact Nat.le_add_right _ _
    · split
      · exact le_trans (ih _ _) (by omega)
      · split
        · exact le_trans (ih _ _) (by omega)
        · split
          · exact Nat.le_add_right _ _
          · exact Nat.le_add_right _ _

theorem allocBufGo_all_pinned (fuel : Nat) :
    ∀ (s : BufState) (steps : Nat),
      s.bufDescTable.length = s.numBufs →
      s.clockHand < s.numBufs →
      (∀ i, i < s.numBufs → (s.descAt i).valid = true ∧ (s.descAt i).pinCnt ≠ 0) →
      (allocBufGo s fuel steps).2.1 = Except.error BufErr.bufferExceeded := by
  induction fuel with
  | zero => intro s steps _ _ _; rfl
  | succ n ih =>
    intro s steps hlen hc hall
    obtain ⟨hv, hp⟩ := hall s.clockHand hc
    have hpos : 0 < s.numBufs := Nat.lt_of_le_of_lt (Nat.zero_le _) hc
    have hvne : ¬((s.descAt s.clockHand).valid = false) := by simp [hv]
    simp only [allocBufGo]
    rw [if_neg hvne]
    by_cases hrb : (s.descAt s.clockHand).refbit = true
    · rw [if_pos hrb]
      apply ih
      · simp [BufState.advanceClock, BufState.setDesc, hlen]
      · simpa [BufState.advanceClock, BufState.setDesc] using Nat.mod_lt _ hpos
      · intro i hi
        rw [numBufs_advanceClock, numBufs_setDesc] at hi
        rw [descAt_advanceClock]
        by_cases hic : i = s.clockHand
        · rw [hic, descAt_setDesc_self s s.clockHand _ (by omega)]
          exact ⟨hv, hp⟩
        · rw [descAt_setDesc_of_ne s i s.clockHand _ hic]
          exact hall i hi
    · rw [if_neg hrb, if_pos hp]
      apply ih
      · simpa [BufState.advanceClock] using hlen
      · simpa [BufState.advanceClock] using Nat.mod_lt _ hpos
      · intro i hi
        rw [numBufs_advanceClock] at hi
        rw [descAt_advanceClock]
        exact hall i hi

/-- Claim C3: `allocBuf` performs at most `2 N` step-actions (a refbit-clear
or a pinned-skip, the `count++` sites of the loop) — the sweep's step count
never exceeds `2 * numBufs`; and whenever every frame is valid and pinned
(`pinCnt ≠ 0`), for instance after reading `N` distinct pages without
unpinning, the sweep finds no victim and raises `BufferExceeded`. -/
theorem allocBuf_step_bound_and_exhaustion (s : BufState) :
    (allocBuf s).2.2 ≤ 2 * s.numBufs ∧
    (s.bufDescTable.length = s.numBufs →
     s.clockHand < s.numBufs →
     (∀ i, i < s.numBufs → (s.descAt i).valid = true ∧ (s.descAt i).pinCnt ≠ 0) →
     (allocBuf s).2.1 = Except.error BufErr.bufferExceeded) := by
  constructor
  · simpa using allocBufGo_steps_le (2 * s.numBufs) s 0
  · intro hlen hc hall
    exact allocBufGo_all_pinned (2 * s.numBufs) s 0 hlen hc hall

/-- A fully pinned one-frame pool: `readPage(1, 1)` on a fresh pool pins the
only frame. -/
def pinnedState : BufState := (readPage (initState 1 diskA) 1 1).1

/-- Witness for claim C3: on the concrete fully pinned pool `pinnedState`,
the hypotheses hold and `allocBuf` raises `BufferExceeded`. -/
theorem allocBuf_step_bound_and_exhaustion_witness :
    (allocBuf pinnedState).2.2 ≤ 2 * pinnedState.numBufs ∧
    (allocBuf pinnedState).2.1 = Except.error BufErr.bufferExceeded :=
  ⟨(allocBuf_step_bound_and_exhaustion pinnedState).1,
   (allocBuf_step_bound_and_exhaustion pinnedState).2
     (by decide) (by decide) (by decide)⟩

/-! ### Dirty-victim eviction -/

theorem allocBuf_dirty_eq (s : BufState)
    (hv : (s.descAt s.clockHand).valid = true)
    (hr : (s.descAt s.clockHand).refbit = false)
    (hp : (s.descAt s.clockHand).pinCnt = 0)
    (hd : (s.descAt s.clockHand).dirty = true)
    (hn : s.numBufs ≠ 0) :
    allocBuf s = (evictDirty s, Except.ok s.clockHand, 0) := by
  obtain ⟨m, hm⟩ : ∃ m, 2 * s.numBufs = m + 1 := ⟨2 * s.numBufs - 1, by omega⟩
  rw [allocBuf, hm]
  simp only [allocBufGo]
  rw [if_neg (by simp [hv]), if_neg (by simp [hr]), if_neg (by simp [hp]),
    if_pos hd]

theorem evictDirty_effects (s : BufState) (f : Nat)
    (hf : (s.descAt s.clockHand).file = some f)
    (hv : (s.descAt s.clockHand).valid = true) :
    (evictDirty s).diskwrites = s.diskwrites + 1 ∧
    (evictDirty s).accesses = s.accesses + 1 ∧
    (evictDirty s).hashLookup f (s.descAt s.clockHand).pageNo = none ∧
    (evictDirty s).descAt s.clockHand = (s.descAt s.clockHand).clear ∧
    (evictDirty s).readDisk f (s.descAt s.clockHand).pageNo = s.poolAt s.clockHand ∧
    (evictDirty s).trace = s.trace ++ [Ev.wr f (s.descAt s.clockHand).pageNo] := by
  have hlt := descAt_valid_lt_length s s.clockHand hv
  refine ⟨?_, ?_, ?_, ?_, ?_, ?_⟩
  · simp [evictDirty, BufState.writePage, BufState.hashRemove, BufState.setDesc]
  · simp [evictDirty, BufState.writePage, BufState.hashRemove, BufState.setDesc]
  · simp [evictDirty, BufState.hashLookup, BufState.writePage,
      BufState.hashRemove, BufState.setDesc, hf, assocFind_erase]
  · exact descAt_setDesc_self _ s.clockHand _ hlt
  · simp [evictDirty, BufState.readDisk, BufState.writePage,
      BufState.hashRemove, BufState.setDesc, hf, assocFind]
  · simp [evictDirty, BufState.writePage, BufState.hashRemove,
      BufState.setDesc, hf]

/-- Claim C4: when the frame under the clock hand is a valid, unpinned,
reference-clear, dirty victim owned by file `f`, `allocBuf` writes the
resident page back to `f` (exactly one extra `diskwrites` and one extra
`accesses`), removes the page's index entry, clears the descriptor, and
returns that frame; the written-back disk contents are the frame's
pre-eviction pool contents, the write event is appended to the trace before
`allocBuf` returns, and when a caller (`readPage` on a missing page
`(f2, p2)`) subsequently fills the frame, the write event precedes the
caller's disk read in the trace and the written-back page still holds the
old pool contents — the write-back happens before the new data is placed. -/
theorem allocBuf_dirty_victim (s : BufState) (f f2 p2 : Nat)
    (hv : (s.descAt s.clockHand).valid = true)
    (hr : (s.descAt s.clockHand).refbit = false)
    (hp : (s.descAt s.clockHand).pinCnt = 0)
    (hd : (s.descAt s.clockHand).dirty = true)
    (hf : (s.descAt s.clockHand).file = some f)
    (hn : s.numBufs ≠ 0)
    (hmiss : s.hashLookup f2 p2 = none) :
    (allocBuf s).2.1 = Except.ok s.clockHand ∧
    (allocBuf s).1.diskwrites = s.diskwrites + 1 ∧
    (allocBuf s).1.accesses = s.accesses + 1 ∧
    (allocBuf s).1.hashLookup f (s.descAt s.clockHand).pageNo = none ∧
    (allocBuf s).1.descAt s.clockHand = (s.descAt s.clockHand).clear ∧
    (allocBuf s).1.readDisk f (s.descAt s.clockHand).pageNo
      = s.poolAt s.clockHand ∧
    (allocBuf s).1.trace = s.trace ++ [Ev.wr f (s.descAt s.clockHand).pageNo] ∧
    (readPage s f2 p2).1.trace
      = s.trace ++ [Ev.wr f (s.descAt s.clockHand).pageNo, Ev.rd f2 p2] ∧
    (readPage s f2 p2).1.readDisk f (s.descAt s.clockHand).pageNo
      = s.poolAt s.clockHand := by
  have halloc := allocBuf_dirty_eq s hv hr hp hd hn
  have heff := evictDirty_effects s f hf hv
  have hread : readPage s f2 p2 =
      (let r := allocBuf s
       let frameNo := s.clockHand
       let v := r.1.readDisk f2 p2
       let s2 := r.1.markRead f2 p2
       let s3 := { s2 with diskreads := s2.diskreads + 1 }
       let s4 := { s3 with bufPool := s3.bufPool.set frameNo v }
       let s5 := s4.hashInsert f2 p2 frameNo
       let s6 := s5.setDesc frameNo ((s5.descAt frameNo).Set f2 p2)
       (s6, Except.ok ())) := by
    simp only [readPage, hmiss, halloc]
  refine ⟨by rw [halloc], ?_, ?_, ?_, ?_, ?_, ?_, ?_, ?_⟩
  · rw [halloc]; exact heff.1
  · rw [halloc]; exact heff.2.1
  · rw [halloc]; exact heff.2.2.1
  · rw [halloc]; exact heff.2.2.2.1
  · rw [halloc]; exact heff.2.2.2.2.1
  · rw [halloc]; exact heff.2.2.2.2.2
  · rw [hread]
    simp only [halloc]
    simp [BufState.setDesc, BufState.hashInsert, BufState.markRead,
      heff.2.2.2.2.2]
  · rw [hread]
    simp only [halloc]
    simp only [BufState.setDesc, BufState.hashInsert, BufState.markRead]
    exact heff.2.2.2.2.1

/-- A one-frame pool whose only frame is a valid, unpinned, reference-clear,
dirty victim: `readPage(1, 1); unPinPage(1, 1, true)` on a fresh pool. -/
def dirtyVictimState : BufState :=
  (unPinPage (readPage (initState 1 diskA) 1 1).1 1 1 true).1

/-- Witness for claim C4: the dirty-victim hypotheses hold in the concrete
state `dirtyVictimState` and the conclusion follows by applying the
theorem there. -/
theorem allocBuf_dirty_victim_witness :
    (allocBuf dirtyVictimState).2.1 = Except.ok dirtyVictimState.clockHand ∧
    (allocBuf dirtyVictimState).1.diskwrites = dirtyVictimState.diskwrites + 1 ∧
    (allocBuf dirtyVictimState).1.accesses = dirtyVictimState.accesses + 1 ∧
    (allocBuf dirtyVictimState).1.hashLookup 1
      (dirtyVictimState.descAt dirtyVictimState.clockHand).pageNo = none ∧
    (allocBuf dirtyVictimState).1.descAt dirtyVictimState.clockHand
      = (dirtyVictimState.descAt dirtyVictimState.clockHand).clear ∧
    (allocBuf dirtyVictimState).1.readDisk 1
      (dirtyVictimState.descAt dirtyVictimState.clockHand).pageNo
      = dirtyVictimState.poolAt dirtyVictimState.clockHand ∧
    (allocBuf dirtyVictimState).1.trace = dirtyVictimState.trace
      ++ [Ev.wr 1 (dirtyVictimState.descAt dirtyVictimState.clockHand).pageNo] ∧
    (readPage dirtyVictimState 2 2).1.trace = dirtyVictimState.trace
      ++ [Ev.wr 1 (dirtyVictimState.descAt dirtyVictimState.clockHand).pageNo,
          Ev.rd 2 2] ∧
    (readPage dirtyVictimState 2 2).1.readDisk 1
      (dirtyVictimState.descAt dirtyVictimState.clockHand).pageNo
      = dirtyVictimState.poolAt dirtyVictimState.clockHand :=
  allocBuf_dirty_victim dirtyVictimState 1 2 2 (by decide) (by decide)
    (by decide) (by decide) (by decide) (by decide) (by decide)

/-! ### flushFile: error order and partial progress -/

theorem descAt_hashRemove (s : BufState) (f p i : Nat) :
    (s.hashRemove f p).descAt i = s.descAt i := rfl

theorem descAt_writePage (s : BufState) (f p v i : Nat) :
    (s.writePage f p v).descAt i = s.descAt i := rfl

theorem numBufs_hashRemove (s : BufState) (f p : Nat) :
    (s.hashRemove f p).numBufs = s.numBufs := rfl

theorem numBufs_writePage (s : BufState) (f p v : Nat) :
    (s.writePage f p v).numBufs = s.numBufs := rfl

theorem descAt_flushFrame_of_ne (s : BufState) (f i j : Nat) (hj : j ≠ i) :
    (flushFrame s f i).descAt j = s.descAt j := by
  simp only [flushFrame]
  rw [descAt_setDesc_of_ne _ _ _ _ hj, descAt_hashRemove,
    descAt_setDesc_of_ne _ _ _ _ hj, descAt_writePage]

theorem descAt_flushFrame_self (s : BufState) (f i : Nat)
    (hilen : i < s.bufDescTable.length) :
    (flushFrame s f i).descAt i = (s.descAt i).clear := by
  simp only [flushFrame]
  rw [descAt_setDesc_self _ _ _ (by
    simp [BufState.setDesc, BufState.hashRemove, BufState.writePage, hilen])]
  rw [descAt_hashRemove, descAt_setDesc_self _ _ _ (by
    simp [BufState.writePage, hilen])]
  rfl

theorem numBufs_flushFrame (s : BufState) (f i : Nat) :
    (flushFrame s f i).numBufs = s.numBufs := rfl

theorem len_flushFrame (s : BufState) (f i : Nat) :
    (flushFrame s f i).bufDescTable.length = s.bufDescTable.length := by
  simp [flushFrame, BufState.setDesc, BufState.hashRemove, BufState.writePage]

theorem flushGo_first_offender (fuel : Nat) :
    ∀ (s : BufState) (f i i0 : Nat),
      i ≤ i0 → i0 < s.numBufs → s.numBufs - i ≤ fuel →
      (∀ j, i ≤ j → j < i0 →
        ¬((s.descAt j).file = some f ∧
          ((s.descAt j).valid = false ∨ (s.descAt j).pinCnt > 0))) →
      (s.descAt i0).file = some f →
      ((s.descAt i0).valid = false ∨ (s.descAt i0).pinCnt > 0) →
      (flushGo s f i fuel).2 = Except.error
        (if (s.descAt i0).valid = false then
          BufErr.badBuffer i0 (s.descAt i0).dirty (s.descAt i0).valid
            (s.descAt i0).refbit
         else BufErr.pagePinned f (s.descAt i0).pageNo i0) ∧
      (∀ j, i0 ≤ j → (flushGo s f i fuel).1.descAt j = s.descAt j) ∧
      (∀ j, j < i → (flushGo s f i fuel).1.descAt j = s.descAt j) ∧
      (∀ j, i ≤ j → j < i0 → (s.descAt j).file = some f →
        (s.descAt j).dirty = true →
        (flushGo s f i fuel).1.descAt j = (s.descAt j).clear) ∧
      (∀ j, i ≤ j → j < i0 →
        ¬((s.descAt j).file = some f ∧ (s.descAt j).dirty = true) →
        (flushGo s f i fuel).1.descAt j = s.descAt j) := by
  induction fuel with
  | zero =>
    intro s f i i0 hle hlt hfuel _ _ _
    omega
  | succ n ih =>
    intro s f i i0 hle hlt hfuel hmin hmatch hbad
    simp only [flushGo]
    rw [if_neg (by omega)]
    by_cases hii : i = i0
    · subst hii
      rw [if_pos hmatch]
      by_cases hvd : (s.descAt i).valid = false
      · rw [if_pos hvd, if_pos hvd]
        exact ⟨rfl, fun j _ => rfl, fun j _ => rfl,
          fun j h1 h2 _ _ => by omega, fun j h1 h2 _ => by omega⟩
      · have hpin : (s.descAt i).pinCnt > 0 := by
          rcases hbad with h | h
          · exact absurd h hvd
          · exact h
        rw [if_neg hvd, if_pos hpin, if_neg hvd]
        exact ⟨rfl, fun j _ => rfl, fun j _ => rfl,
          fun j h1 h2 _ _ => by omega, fun j h1 h2 _ => by omega⟩
    · have hilt : i < i0 := by omega
      have hnotoff := hmin i (le_refl i) hilt
      by_cases hfm : (s.descAt i).file = some f
      · have hvd : ¬((s.descAt i).valid = false) := by
          intro h; exact hnotoff ⟨hfm, Or.inl h⟩
        have hpin0 : ¬((s.descAt i).pinCnt > 0) := by
          intro h; exact hnotoff ⟨hfm, Or.inr h⟩
        have hvt : (s.descAt i).valid = true := by
          revert hvd; cases (s.descAt i).valid <;> simp
        have hilen : i < s.bufDescTable.length :=
          descAt_valid_lt_length s i hvt
        rw [if_pos hfm, if_neg hvd, if_neg hpin0]
        by_cases hdy : (s.descAt i).dirty = true
        · rw [if_pos hdy]
          obtain ⟨ih1, ih2, ih3, ih4, ih5⟩ :=
            ih (flushFrame s f i) f (i + 1) i0 (by omega)
              (by rw [numBufs_flushFrame]; exact hlt)
              (by rw [numBufs_flushFrame]; omega)
              (fun j hj1 hj2 => by
                rw [descAt_flushFrame_of_ne s f i j (by omega)]
                exact hmin j (by omega) hj2)
              (by rw [descAt_flushFrame_of_ne s f i i0 (by omega)]
                  exact hmatch)
              (by rw [descAt_flushFrame_of_ne s f i i0 (by omega)]
                  exact hbad)
          refine ⟨?_, ?_, ?_, ?_, ?_⟩
          · rw [ih1, descAt_flushFrame_of_ne s f i i0 (by omega)]
          · intro j hj
            rw [ih2 j hj, descAt_flushFrame_of_ne s f i j (by omega)]
          · intro j hj
            rw [ih3 j (by omega), descAt_flushFrame_of_ne s f i j (by omega)]
          · intro j hj1 hj2 hjm hjd
            by_cases hji : j = i
            · subst hji
              rw [ih3 j (by omega), descAt_flushFrame_self s f j hilen]
            · rw [ih4 j (by omega) hj2
                (by rw [descAt_flushFrame_of_ne s f i j hji]; exact hjm)
                (by rw [descAt_flushFrame_of_ne s f i j hji]; exact hjd),
                descAt_flushFrame_of_ne s f i j hji]
          · intro j hj1 hj2 hnot
            by_cases hji : j = i
            · subst hji
              exact absurd ⟨hfm, hdy⟩ hnot
            · rw [ih5 j (by omega) hj2
                (by rw [descAt_flushFrame_of_ne s f i j hji]; exact hnot),
                descAt_flushFrame_of_ne s f i j hji]
        · rw [if_neg hdy]
          obtain ⟨ih1, ih2, ih3, ih4, ih5⟩ :=
            ih s f (i + 1) i0 (by omega) hlt (by omega)
              (fun j hj1 hj2 => hmin j (by omega) hj2) hmatch hbad
          refine ⟨ih1, fun j hj => ih2 j hj, fun j hj => ih3 j (by omega),
            ?_, ?_⟩
          · intro j hj1 hj2 hjm hjd
            by_cases hji : j = i
            · subst hji; exact absurd hjd hdy
            · exact ih4 j (by omega) hj2 hjm hjd
          · intro j hj1 hj2 hnot
            by_cases hji : j = i
            · subst hji; exact ih3 j (by omega)
            · exact ih5 j (by omega) hj2 hnot
      · rw [if_neg hfm]
        obtain ⟨ih1, ih2, ih3, ih4, ih5⟩ :=
          ih s f (i + 1) i0 (by omega) hlt (by omega)
            (fun j hj1 hj2 => hmin j (by omega) hj2) hmatch hbad
        refine ⟨ih1, fun j hj => ih2 j hj, fun j hj => ih3 j (by omega),
          ?_, ?_⟩
        · intro j hj1 hj2 hjm hjd
          by_cases hji : j = i
          · subst hji; exact absurd hjm hfm
          · exact ih4 j (by omega) hj2 hjm hjd
        · intro j hj1 hj2 hnot
          by_cases hji : j = i
          · subst hji; exact ih3 j (by omega)
          · exact ih5 j (by omega) hj2 hnot

/-- Claim C6: `flushFile` visits frames in ascending index order; at the
first frame `i0` whose `file` equals the flushed file and which is
offending (invalid or pinned), it aborts with `BadBuffer` when
`valid = false` and otherwise with `PagePinned` (the invalid check
precedes the pinned check); frames at or beyond `i0` are untouched,
matching dirty frames before `i0` have already been flushed (descriptor
cleared) and remain so, and all other frames before `i0` are unchanged. -/
theorem flushFile_first_offending_frame (s : BufState) (f i0 : Nat)
    (hi0 : i0 < s.numBufs)
    (hmatch : (s.descAt i0).file = some f)
    (hbad : (s.descAt i0).valid = false ∨ (s.descAt i0).pinCnt > 0)
    (hmin : ∀ j, j < i0 →
      ¬((s.descAt j).file = some f ∧
        ((s.descAt j).valid = false ∨ (s.descAt j).pinCnt > 0))) :
    (flushFile s f).2 = Except.error
      (if (s.descAt i0).valid = false then
        BufErr.badBuffer i0 (s.descAt i0).dirty (s.descAt i0).valid
          (s.descAt i0).refbit
       else BufErr.pagePinned f (s.descAt i0).pageNo i0) ∧
    (∀ j, i0 ≤ j → (flushFile s f).1.descAt j = s.descAt j) ∧
    (∀ j, j < i0 → (s.descAt j).file = some f → (s.descAt j).dirty = true →
      (flushFile s f).1.descAt j = (s.descAt j).clear) ∧
    (∀ j, j < i0 → ¬((s.descAt j).file = some f ∧ (s.descAt j).dirty = true) →
      (flushFile s f).1.descAt j = s.descAt j) := by
  obtain ⟨h1, h2, h3, h4, h5⟩ := flushGo_first_offender s.numBufs s f 0 i0
    (Nat.zero_le _) hi0 (by omega) (fun j _ hj => hmin j hj) hmatch hbad
  exact ⟨h1, h2, fun j hj => h4 j (Nat.zero_le _) hj,
    fun j hj => h5 j (Nat.zero_le _) hj⟩

/-- Witness for claim C6: in the concrete state `pinnedState` frame 0 holds
the pinned page `(1, 1)`, so `flushFile 1` aborts with `PagePinned`. -/
theorem flushFile_first_offending_frame_witness :
    (flushFile pinnedState 1).2 = Except.error
      (if (pinnedState.descAt 0).valid = false then
        BufErr.badBuffer 0 (pinnedState.descAt 0).dirty
          (pinnedState.descAt 0).valid (pinnedState.descAt 0).refbit
       else BufErr.pagePinned 1 (pinnedState.descAt 0).pageNo 0) :=
  (flushFile_first_offending_frame pinnedState 1 0 (by decide) (by decide)
    (by decide) (by decide)).1

/-! ### unPinPage -/

/-- Claim C7: `unPinPage(file, pageNo, dirty)` — if `(file, pageNo)` is
absent from the page index, it returns silently with the state unchanged;
if it is resident in a frame with `pinCnt = 0`, it raises `PageNotPinned`
with the state unchanged; otherwise it decrements that frame's `pinCnt` by
exactly one, leaves every other frame unchanged, and sets the dirty bit to
the disjunction of the `dirty` argument with its old value — so a set dirty
bit is never reset to false. -/
theorem unPinPage_spec (s : BufState) (f p : Nat) (dirty : Bool) :
    (s.hashLookup f p = none → unPinPage s f p dirty = (s, Except.ok ())) ∧
    (∀ i, s.hashLookup f p = some i → (s.descAt i).pinCnt = 0 →
      unPinPage s f p dirty = (s, Except.error (BufErr.pageNotPinned f p i))) ∧
    (∀ i, s.hashLookup f p = some i → (s.descAt i).pinCnt ≠ 0 →
      (unPinPage s f p dirty).2 = Except.ok () ∧
      ((unPinPage s f p dirty).1.descAt i).pinCnt = (s.descAt i).pinCnt - 1 ∧
      ((unPinPage s f p dirty).1.descAt i).dirty
        = (dirty || (s.descAt i).dirty) ∧
      (∀ j, j ≠ i → (unPinPage s f p dirty).1.descAt j = s.descAt j)) := by
  refine ⟨?_, ?_, ?_⟩
  · intro h
    simp [unPinPage, h]
  · intro i hL h0
    simp [unPinPage, hL, h0]
  · intro i hL hne
    have hlen : i < s.bufDescTable.length := descAt_pin_lt_length s i hne
    simp only [unPinPage, hL]
    rw [if_neg hne]
    cases dirty with
    | false =>
      rw [if_neg (by simp)]
      refine ⟨rfl, ?_, ?_, ?_⟩
      · rw [descAt_setDesc_self _ _ _ hlen]
      · rw [descAt_setDesc_self _ _ _ hlen]
        simp
      · intro j hj
        exact descAt_setDesc_of_ne _ _ _ _ hj
    | true =>
      rw [if_pos rfl]
      have hlen1 : i < (s.setDesc i { s.descAt i with
          pinCnt := (s.descAt i).pinCnt - 1 }).bufDescTable.length := by
        simpa [BufState.setDesc] using hlen
      refine ⟨rfl, ?_, ?_, ?_⟩
      · rw [descAt_setDesc_self _ _ _ hlen1, descAt_setDesc_self _ _ _ hlen]
      · rw [descAt_setDesc_self _ _ _ hlen1]
        simp
      · intro j hj
        rw [descAt_setDesc_of_ne _ _ _ _ hj, descAt_setDesc_of_ne _ _ _ _ hj]

/-- Witness for claim C7: on `pinnedState` (page `(1, 1)` resident and
pinned once), `unPinPage(1, 1, true)` succeeds, decrements the pin count
and sets the dirty bit. -/
theorem unPinPage_spec_witness :
    (unPinPage pinnedState 1 1 true).2 = Except.ok () ∧
    ((unPinPage pinnedState 1 1 true).1.descAt 0).pinCnt
      = (pinnedState.descAt 0).pinCnt - 1 ∧
    ((unPinPage pinnedState 1 1 true).1.descAt 0).dirty
      = (true || (pinnedState.descAt 0).dirty) := by
  have h := (unPinPage_spec pinnedState 1 1 true).2.2 0 (by decide) (by decide)
  exact ⟨h.1, h.2.1, h.2.2.1⟩

/-! ### disposePage -/

theorem descAt_deletePage (s : BufState) (f p i : Nat) :
    (s.deletePage f p).descAt i = s.descAt i := rfl

/-- Claim C9: `disposePage(file, pageNo)` always succeeds, invokes
`file.deletePage(pageNo)` exactly once (the trace is extended by exactly
one deletion event and nothing else), performs no write-back (`diskwrites`
is unchanged and no write event is emitted), and when the page is resident
it removes the page-index entry and clears the frame's descriptor. -/
theorem disposePage_spec (s : BufState) (f p : Nat) :
    (disposePage s f p).2 = Except.ok () ∧
    (disposePage s f p).1.trace = s.trace ++ [Ev.del f p] ∧
    (disposePage s f p).1.diskwrites = s.diskwrites ∧
    (∀ i, s.hashLookup f p = some i →
      (disposePage s f p).1.hashLookup f p = none ∧
      (disposePage s f p).1.descAt i = (s.descAt i).clear) := by
  refine ⟨?_, ?_, ?_, ?_⟩
  · cases h : s.hashLookup f p <;> simp [disposePage, h]
  · cases h : s.hashLookup f p <;>
      simp [disposePage, h, BufState.deletePage, BufState.setDesc,
        BufState.hashRemove]
  · cases h : s.hashLookup f p <;>
      simp [disposePage, h, BufState.deletePage, BufState.setDesc,
        BufState.hashRemove]
  · intro i hi
    constructor
    · simp only [disposePage, hi]
      simp [BufState.hashLookup, BufState.deletePage, BufState.setDesc,
        BufState.hashRemove, assocFind_erase]
    · simp only [disposePage, hi]
      rw [descAt_deletePage]
      by_cases hlen : i < s.bufDescTable.length
      · exact descAt_setDesc_self _ _ _ hlen
      · have hout : s.bufDescTable.length ≤ i := by omega
        have hrhs : s.descAt i = default := by
          simp only [BufState.descAt]
          exact listGetD_of_len_le _ _ _ hout
        have hlhs : ((s.hashRemove f p).setDesc i
            ((s.descAt i).clear)).descAt i = default := by
          simp only [BufState.descAt, BufState.setDesc, BufState.hashRemove]
          exact listGetD_of_len_le _ _ _ (by simpa using hout)
        rw [hlhs, hrhs, clear_default]

/-- Witness for claim C9: disposing the resident clean page `(1, 5)` of
`cleanVictimState` removes its index entry and clears the descriptor. -/
theorem disposePage_spec_witness :
    (disposePage cleanVictimState 1 5).1.hashLookup 1 5 = none ∧
    (disposePage cleanVictimState 1 5).1.descAt 0
      = (cleanVictimState.descAt 0).clear :=
  (disposePage_spec cleanVictimState 1 5).2.2.2 0 (by decide)

/-- Claim C10: `disposePage` never inspects the pin count.  For a resident
page whose frame is pinned (`pinCnt > 0`) it raises no error, removes the
page-index entry, and clears the descriptor — resetting `pinCnt` to 0 and
`valid` to false — so that, with the clock hand on that frame, the very
next `allocBuf` hands the frame out again while the client still holds its
pinned reference. -/
theorem disposePage_ignores_pins (s : BufState) (f p i : Nat)
    (hres : s.hashLookup f p = some i)
    (hpin : (s.descAt i).pinCnt > 0)
    (hn : s.numBufs ≠ 0) :
    (disposePage s f p).2 = Except.ok () ∧
    (disposePage s f p).1.hashLookup f p = none ∧
    (disposePage s f p).1.descAt i = (s.descAt i).clear ∧
    ((disposePage s f p).1.descAt i).pinCnt = 0 ∧
    ((disposePage s f p).1.descAt i).valid = false ∧
    (disposePage s f p).1.clockHand = s.clockHand ∧
    (s.clockHand = i →
      (allocBuf (disposePage s f p).1).2.1 = Except.ok i) := by
  have hlen : i < s.bufDescTable.length :=
    descAt_pin_lt_length s i (by omega)
  have hdesc : (disposePage s f p).1.descAt i = (s.descAt i).clear := by
    simp only [disposePage, hres]
    rw [descAt_deletePage]
    exact descAt_setDesc_self _ _ _ hlen
  have hcl : (disposePage s f p).1.clockHand = s.clockHand := by
    simp [disposePage, hres, BufState.deletePage, BufState.setDesc,
      BufState.hashRemove]
  refine ⟨?_, ?_, hdesc, ?_, ?_, hcl, ?_⟩
  · simp [disposePage, hres]
  · simp only [disposePage, hres]
    simp [BufState.hashLookup, BufState.deletePage, BufState.setDesc,
      BufState.hashRemove, assocFind_erase]
  · rw [hdesc]; rfl
  · rw [hdesc]; rfl
  · intro hch
    subst hch
    have hnb : (disposePage s f p).1.numBufs = s.numBufs := by
      simp [disposePage, hres, BufState.deletePage, BufState.setDesc,
        BufState.hashRemove]
    have hv : ((disposePage s f p).1.descAt
        (disposePage s f p).1.clockHand).valid = false := by
      rw [hcl, hdesc]
      rfl
    obtain ⟨m, hm⟩ : ∃ m, 2 * (disposePage s f p).1.numBufs = m + 1 :=
      ⟨2 * s.numBufs - 1, by rw [hnb]; omega⟩
    rw [allocBuf, hm]
    simp only [allocBufGo]
    rw [if_pos hv]
    show Except.ok (disposePage s f p).1.clockHand = Except.ok s.clockHand
    rw [hcl]

/-- Witness for claim C10: in `pinnedState` page `(1, 1)` is resident in
frame 0 with `pinCnt = 1` and the clock hand on frame 0; `disposePage`
succeeds, unmaps the page, and the next `allocBuf` returns frame 0. -/
theorem disposePage_ignores_pins_witness :
    (disposePage pinnedState 1 1).2 = Except.ok () ∧
    (disposePage pinnedState 1 1).1.hashLookup 1 1 = none ∧
    (allocBuf (disposePage pinnedState 1 1).1).2.1 = Except.ok 0 := by
  have h := disposePage_ignores_pins pinnedState 1 1 0 (by decide) (by decide)
    (by decide)
  exact ⟨h.1, h.2.1, h.2.2.2.2.2.2 (by decide)⟩
